import Mathlib

/-!
Verification of the wikiwiki entity-resolution pipeline and relationship
graph builder.  The definitions below are a shallow embedding of
src/lib/entityResolver.js and src/lib/graphBuilder.js: JavaScript objects
become structures, object property access becomes association-list lookup,
network calls become explicit parameters describing the remote responses,
and thrown errors become Except values.
-/

/-! ## Generic JavaScript-style helpers -/

/-- Association-list lookup, modelling JavaScript object property access
(first binding wins; our tables have unique keys, matching object literals). -/
def jsGet {α : Type} : List (String × α) → String → Option α
  | [], _ => none
  | (k, v) :: rest, key => if k = key then some v else jsGet rest key

/-- Models JavaScript String.prototype.startsWith via character lists. -/
def strStartsWith (s p : String) : Bool :=
  p.data.isPrefixOf s.data

/-- Helper for the substring test: does sub occur inside the list. -/
def listContainsSub (sub : List Char) : List Char → Bool
  | [] => sub.isEmpty
  | c :: rest => sub.isPrefixOf (c :: rest) || listContainsSub sub rest

/-- Models JavaScript String.prototype.includes (substring test). -/
def jsIncludes (s sub : String) : Bool :=
  listContainsSub sub.data s.data

/-- Models JavaScript String.prototype.toLowerCase on the alphabet used by
this program: ASCII letters plus the accented capitals appearing in French
month names and page titles. -/
def jsToLower (s : String) : String :=
  s.map fun c =>
    if c = 'É' then 'é' else if c = 'Û' then 'û'
    else if c = 'È' then 'è' else if c = 'Ê' then 'ê'
    else if c = 'À' then 'à' else if c = 'Ç' then 'ç' else c.toLower

/-- Models the JavaScript expression `v || fallback` for strings, where the
empty string is falsy. -/
def jsOrElse (v : Option String) (fallback : String) : String :=
  match v with
  | some s => if s = "" then fallback else s
  | none => fallback

/-! ## Wikidata record model (entityResolver.js) -/

/-- A Wikidata datavalue value: either an entity reference carrying an id,
a plain string (external identifiers), or geographic coordinates. -/
inductive WDValue where
  | ent (id : String)
  | str (s : String)
  | coord (latitude longitude : Int)
deriving DecidableEq

/-- The mainsnak of a claim; datavalue may be absent. -/
structure Snak where
  datavalue : Option WDValue
deriving DecidableEq

/-- A single Wikidata claim. -/
structure WDClaim where
  mainsnak : Snak
deriving DecidableEq

/-- The raw Wikidata record fetched by fetchWikidataEntity: labels and
descriptions per language, claims per property, sitelinks per site. -/
structure WikidataEntity where
  labels : List (String × String)
  descriptions : List (String × String)
  claims : List (String × List WDClaim)
  sitelinks : List (String × String)
deriving DecidableEq

/-- Per-provider payload stored under entity.sources.  The graph builder
reads the wikidata claims and the wikipedia links/thumbnail; other
enrichment payloads are opaque here. -/
inductive SourceData where
  | wikidata (claims : List (String × List WDClaim)) (sitelinks : List (String × String))
  | wikipedia (extract : Option String) (thumbnail : Option String) (links : Option (List String))
  | blob (tag : String)
deriving DecidableEq

/-- The resolved Entity value object (see the typedef in entityResolver.js). -/
structure Entity where
  id : String
  name : String
  description : Option String
  type : String
  identifiers : List (String × WDValue)
  sources : List (String × SourceData)
deriving DecidableEq

/-- A disambiguation candidate: display title plus canonical Wikidata id. -/
structure Candidate where
  title : String
  wikidataId : String
deriving DecidableEq

/-- getLabel: entity.labels?.[lang]?.value || entity.labels?.['en']?.value. -/
def getLabel (e : WikidataEntity) (lang : String) : Option String :=
  match jsGet e.labels lang with
  | some v => if v = "" then (jsGet e.labels "en") else some v
  | none => jsGet e.labels "en"

/-- getDescription: same fallback chain over descriptions. -/
def getDescription (e : WikidataEntity) (lang : String) : Option String :=
  match jsGet e.descriptions lang with
  | some v => if v = "" then (jsGet e.descriptions "en") else some v
  | none => jsGet e.descriptions "en"

/-- The fixed instance-of lookup table of inferEntityType. -/
def typeMap : List (String × String) :=
  [("Q5", "person"), ("Q215627", "person"), ("Q11424", "film"),
   ("Q5398426", "series"), ("Q571", "book"), ("Q7725634", "book"),
   ("Q8341", "concept"), ("Q7278", "concept"), ("Q515", "place"),
   ("Q486972", "place"), ("Q7275", "place"), ("Q8502", "place"),
   ("Q4022", "place"), ("Q35127", "concept"), ("Q28640", "person"),
   ("Q1644573", "concept"), ("Q11173", "concept")]

/-- inferEntityType: read claims.P31[0].mainsnak.datavalue?.value?.id, map it
through typeMap, default to "entity". -/
def inferEntityType (e : WikidataEntity) : String :=
  match jsGet e.claims "P31" with
  | some (c :: _) =>
      match c.mainsnak.datavalue with
      | some (WDValue.ent qid) => (jsGet typeMap qid).getD "entity"
      | _ => "entity"
  | _ => "entity"

/-- The fixed external-identifier property table of extractExternalIdentifiers. -/
def propertyMap : List (String × String) :=
  [("P434", "musicbrainz"), ("P1004", "musicbrainz_work"), ("P4985", "tmdb"),
   ("P214", "viaf"), ("P227", "gnd"), ("P1953", "discogs"),
   ("P646", "freebase"), ("P648", "openlibrary"), ("P345", "imdb"),
   ("P1233", "isfdb_author"), ("P496", "orcid"), ("P625", "coordinates"),
   ("P18", "image")]

/-- Truthiness of a datavalue value as tested by `if (value)`. -/
def wdTruthy : WDValue → Bool
  | WDValue.str s => !s.isEmpty
  | _ => true

/-- extractExternalIdentifiers: first claim value per mapped property.  The
source special-cases P625 by projecting the value onto its latitude and
longitude fields; in this model a coordinate value already carries exactly
those two fields, so the projection is the identity. -/
def extractExternalIdentifiers (e : WikidataEntity) : List (String × WDValue) :=
  propertyMap.foldl (fun acc pr =>
    match jsGet e.claims pr.1 with
    | some (c :: _) =>
        match c.mainsnak.datavalue with
        | some v => if wdTruthy v then acc ++ [(pr.2, v)] else acc
        | none => acc
    | _ => acc) []

/-! ## Resolution pipeline (entityResolver.js) -/

/-- Errors surfaced by the pipeline: the two not-found throws of
resolveEntity, and errors propagated from the canonical-record fetch. -/
inductive ResolveError where
  | notFound (msg : String)
  | providerError (msg : String)
deriving DecidableEq

/-- Result of resolveEntity: a full entity or a disambiguation list. -/
inductive ResolveOutcome where
  | entity (e : Entity)
  | disambiguation (candidates : List Candidate)
deriving DecidableEq

/-- Promise.allSettled over the enrichment operations: each outcome is
applied in order; a successful enrichment appends its sources key, a failed
one is caught by its own try/catch and leaves the entity unchanged. -/
def applyEnrichments (e : Entity) (outs : List (String × Except String SourceData)) : Entity :=
  outs.foldl (fun ent p =>
    match p.2 with
    | Except.ok payload => { ent with sources := ent.sources ++ [(p.1, payload)] }
    | Except.error _ => ent) e

/-- resolveEntityFromCandidate: fetch the full Wikidata record, build the
base entity, then apply the best-effort enrichments.  The network is
modelled by the fetch outcome and the list of enrichment outcomes. -/
def resolveEntityFromCandidate (lang : String)
    (fetchEntity : String → Except String WikidataEntity)
    (enrichOutcomes : List (String × Except String SourceData))
    (title wikidataId : String) : Except String Entity :=
  match fetchEntity wikidataId with
  | Except.error e => Except.error e
  | Except.ok wd =>
      let base : Entity := {
        id := wikidataId
        name := (getLabel wd lang).getD title
        description := getDescription wd lang
        type := inferEntityType wd
        identifiers := extractExternalIdentifiers wd
        sources := [("wikidata", SourceData.wikidata wd.claims wd.sitelinks)] }
      Except.ok (applyEnrichments base enrichOutcomes)

/-- The resolution pipeline environment: the open-search results, the
per-title canonical-id lookup (none models a missing page, the inner
Option models a missing wikibase_item pageprop; the second component is
the post-redirect title), and the downstream candidate resolution. -/
structure PipelineEnv where
  search : String → List String
  getId : String → Option (Option String × String)
  resolveCand : String → String → Except ResolveError Entity

/-- One iteration of the candidate-collection loop of resolveEntity: drop a
title without a truthy canonical id, skip an id already collected, keep the
post-redirect title otherwise. -/
def ccStep (getId : String → Option (Option String × String))
    (acc : List Candidate) (title : String) : List Candidate :=
  match getId title with
  | some (some id, realTitle) =>
      if id = "" then acc
      else if acc.any (fun c => c.wikidataId = id) then acc
      else acc ++ [{ title := realTitle, wikidataId := id }]
  | _ => acc

/-- The candidate-collection loop of resolveEntity. -/
def collectCandidates (getId : String → Option (Option String × String))
    (titles : List String) : List Candidate :=
  titles.foldl (ccStep getId) []

/-- resolveEntity: search, collect candidates, then the disambiguation
decision rule. -/
def resolveEntity (env : PipelineEnv) (searchTerm : String) :
    Except ResolveError ResolveOutcome :=
  let searchResults := env.search searchTerm
  if searchResults.length = 0 then
    Except.error (ResolveError.notFound
      ("Aucun résultat trouvé pour \"" ++ searchTerm ++ "\""))
  else
    match collectCandidates env.getId searchResults with
    | [] =>
        Except.error (ResolveError.notFound
          ("Aucun article valide trouvé pour \"" ++ searchTerm ++ "\""))
    | [c] => (env.resolveCand c.title c.wikidataId).map ResolveOutcome.entity
    | cs => Except.ok (ResolveOutcome.disambiguation cs)

/-! ## Relationship graph builder (graphBuilder.js) -/

/-- A candidate relation produced by extractConnectedEntities: target id,
display label, relation type, relevance score, and producing data source
("wikidata" or "wikipedia"). -/
structure Connected where
  id : String
  label : String
  type : String
  score : Nat
  source : String
deriving DecidableEq

/-- A graph node.  Non-center nodes are created without isCenter,
description or thumbnail fields in the source; the absent fields are
modelled as false and none. -/
structure Node where
  id : String
  label : String
  type : String
  level : Nat
  isCenter : Bool
  score : Option Nat
  description : Option String
  thumbnail : Option String
deriving DecidableEq

/-- A graph edge: source and target node ids, relation type, producing
data source (renamed origin), and the relevance score as value. -/
structure Edge where
  source : String
  target : String
  type : String
  origin : String
  value : Nat
deriving DecidableEq

/-- The graph returned by buildGraph. -/
structure Graph where
  nodes : List Node
  edges : List Edge
deriving DecidableEq

/-- The fixed allow-list of structured claim properties, in the insertion
order of the IMPORTANT_PROPERTIES object literal. -/
def IMPORTANT_PROPERTIES : List (String × String) :=
  [("P31", "type"), ("P106", "occupation"), ("P800", "notable_work"),
   ("P136", "genre"), ("P101", "field_of_work"), ("P737", "influenced_by"),
   ("P175", "performer"), ("P161", "cast_member"), ("P57", "director"),
   ("P279", "subclass_of")]

/-- Map.set: overwrite in place when the key exists (keeping its position),
append otherwise. -/
def mapSet (m : List Connected) (c : Connected) : List Connected :=
  if m.any (fun x => x.id = c.id) then
    m.map (fun x => if x.id = c.id then c else x)
  else m ++ [c]

/-- Accessor for entity.sources.wikidata?.claims. -/
def Entity.wikidataClaims (e : Entity) : Option (List (String × List WDClaim)) :=
  match jsGet e.sources "wikidata" with
  | some (SourceData.wikidata cl _) => some cl
  | _ => none

/-- Accessor for entity.sources.wikipedia?.links. -/
def Entity.wikipediaLinks (e : Entity) : Option (List String) :=
  match jsGet e.sources "wikipedia" with
  | some (SourceData.wikipedia _ _ ls) => ls
  | _ => none

/-- Accessor for entity.sources.wikipedia?.thumbnail. -/
def Entity.wikipediaThumbnail (e : Entity) : Option String :=
  match jsGet e.sources "wikipedia" with
  | some (SourceData.wikipedia _ th _) => th
  | _ => none

/-- One structural extraction step: for one allow-listed property, insert
every claim value carrying a truthy entity id with score 3. -/
def structuralStep (claims : List (String × List WDClaim))
    (m : List Connected) (pr : String × String) : List Connected :=
  match jsGet claims pr.1 with
  | some cs =>
      cs.foldl (fun m c =>
        match c.mainsnak.datavalue with
        | some (WDValue.ent qid) =>
            if qid = "" then m
            else mapSet m { id := qid, label := qid, type := pr.2, score := 3, source := "wikidata" }
        | _ => m) m
  | none => m

/-- The full structural (Wikidata) extraction phase. -/
def structuralPhase (e : Entity) : List Connected :=
  match e.wikidataClaims with
  | some claims => IMPORTANT_PROPERTIES.foldl (structuralStep claims) []
  | none => []

/-- The technical-namespace prefixes filtered by isLinkNoise. -/
def technicalPrefixes : List String :=
  ["Aide:", "Modèle:", "Wikipédia:", "Portail:", "Catégorie:",
   "Fichier:", "Projet:", "Discussion:", "Spécial:", "Liste de"]

/-- The calendar month names matched case-insensitively by isLinkNoise. -/
def monthNames : List String :=
  ["janvier", "février", "mars", "avril", "mai", "juin", "juillet",
   "août", "septembre", "octobre", "novembre", "décembre"]

/-- isLinkNoise: drop pure-numeric titles, titles containing the century
token, technical-namespace titles (including the list-of pattern), and
titles containing a month name case-insensitively. -/
def isLinkNoise (title : String) : Bool :=
  if !title.isEmpty && title.data.all Char.isDigit then true
  else if jsIncludes title "siècle" then true
  else if technicalPrefixes.any (fun p => strStartsWith title p) then true
  else if monthNames.any (fun m => jsIncludes (jsToLower title) m) then true
  else false

/-- The textual (Wikipedia links) extraction phase: walk the link list with
its index, skip noise, skip ids already present, give score 2 to the first
ten positions and 1 afterwards. -/
def textualFold : List Connected → List String → Nat → List Connected
  | m, [], _ => m
  | m, t :: ts, idx =>
      let m' :=
        if isLinkNoise t then m
        else
          let id := "wiki:" ++ t
          if m.any (fun c => c.id = id) then m
          else m ++ [{ id := id, label := t, type := "related",
                       score := if idx < 10 then 2 else 1, source := "wikipedia" }]
      textualFold m' ts (idx + 1)

/-- The textual phase applied after the structural phase. -/
def textualPhase (m : List Connected) (e : Entity) : List Connected :=
  match e.wikipediaLinks with
  | some links => textualFold m links 0
  | none => m

/-- Stable insertion into a descending-by-score list, placing the new
element before the first element of equal or smaller score.  Together with
sortDesc this models the stable JavaScript sort with comparator
b.score - a.score. -/
def insertDesc (c : Connected) : List Connected → List Connected
  | [] => [c]
  | x :: xs => if x.score ≤ c.score then c :: x :: xs else x :: insertDesc c xs

/-- Stable sort by descending score. -/
def sortDesc : List Connected → List Connected
  | [] => []
  | x :: xs => insertDesc x (sortDesc xs)

/-- extractConnectedEntities: structural phase, textual phase, then sort by
descending score. -/
def extractConnectedEntities (e : Entity) : List Connected :=
  sortDesc (textualPhase (structuralPhase e) e)

/-- The per-expansion selection of buildGraph: drop scores below 2, then
keep at most maxNodesPerLevel candidates. -/
def selectedCandidates (e : Entity) (maxNodesPerLevel : Nat) : List Connected :=
  ((extractConnectedEntities e).filter (fun c => 2 ≤ c.score)).take maxNodesPerLevel

/-- createNode for the center entity. -/
def createNode (e : Entity) (level : Nat) (isC : Bool) : Node :=
  { id := e.id, label := e.name, type := e.type, level := level,
    isCenter := isC, score := none, description := e.description,
    thumbnail := e.wikipediaThumbnail }

/-- addEdge. -/
def mkEdge (fromId toId typ origin : String) (score : Nat) : Edge :=
  { source := fromId, target := toId, type := typ, origin := origin, value := score }

/-- The mutable BFS state: node list, edge list and visited-id set. -/
structure BuildState where
  nodes : List Node
  edges : List Edge
  visited : List String
deriving DecidableEq

/-- The body of the for-loop over the selected candidates: visited ids get
only an edge, fresh ids get a node at level + 1 plus an edge. -/
def expandStep (srcId : String) (level : Nat) (st : BuildState) (c : Connected) : BuildState :=
  if c.id ∈ st.visited then
    { st with edges := st.edges ++ [mkEdge srcId c.id c.type c.source c.score] }
  else
    { nodes := st.nodes ++ [{ id := c.id, label := c.label, type := c.type,
                              level := level + 1, isCenter := false,
                              score := some c.score, description := none,
                              thumbnail := none }],
      edges := st.edges ++ [mkEdge srcId c.id c.type c.source c.score],
      visited := st.visited ++ [c.id] }

/-- The BFS while-loop.  The source never enqueues anything, so the queue
only shrinks and the recursion is structural. -/
def bfsLoop (depth maxNodesPerLevel : Nat) : List (Entity × Nat) → BuildState → BuildState
  | [], st => st
  | (e, level) :: rest, st =>
      if depth ≤ level then bfsLoop depth maxNodesPerLevel rest st
      else bfsLoop depth maxNodesPerLevel rest
        ((selectedCandidates e maxNodesPerLevel).foldl (expandStep e.id level) st)

/-- buildGraph before the label-resolution pass: center node, then BFS from
the queue seeded with the center. -/
def buildGraphCore (center : Entity) (depth maxNodesPerLevel : Nat) : BuildState :=
  bfsLoop depth maxNodesPerLevel [(center, 0)]
    { nodes := [createNode center 0 true], edges := [], visited := [center.id] }

/-- The outcome of the wbgetentities label request: a thrown fetch or parse
error, a payload without an entities field, or a payload whose entities
table maps an id and a language to an optional label value. -/
inductive LabelsResponse where
  | fail
  | noEntities
  | entities (tbl : String → String → Option String)

/-- fetchWikidataLabels: the source hardcodes the French locale for the
batched label lookup; a thrown error is caught and yields the empty map. -/
def fetchWikidataLabels (resp : LabelsResponse) (ids : List String) : List (String × String) :=
  if ids.length = 0 then []
  else
    match resp with
    | LabelsResponse.fail => []
    | LabelsResponse.noEntities => []
    | LabelsResponse.entities tbl =>
        ids.map (fun id => (id, jsOrElse (tbl id "fr") id))

/-- Modelled from the spec: the label-resolution pass is specified to
resolve display labels in the current locale, the language set via
setLanguage.  This definition follows the words of the spec and is
compared against fetchWikidataLabels, in which the source hardcodes the
French locale. -/
def fetchWikidataLabelsSpec (currentLang : String) (resp : LabelsResponse)
    (ids : List String) : List (String × String) :=
  if ids.length = 0 then []
  else
    match resp with
    | LabelsResponse.fail => []
    | LabelsResponse.noEntities => []
    | LabelsResponse.entities tbl =>
        ids.map (fun id => (id, jsOrElse (tbl id currentLang) id))

/-- Apply the resolved labels back onto a node: only truthy map entries
overwrite the label. -/
def applyLabels (labelsMap : List (String × String)) (n : Node) : Node :=
  match jsGet labelsMap n.id with
  | some l => if l = "" then n else { n with label := l }
  | none => n

/-- buildGraph: BFS core, then the best-effort label-resolution pass over
the node ids that look like Wikidata identifiers. -/
def buildGraph (center : Entity) (depth maxNodesPerLevel : Nat)
    (resp : LabelsResponse) : Graph :=
  let st := buildGraphCore center depth maxNodesPerLevel
  let qidsToTranslate := (st.nodes.filter (fun n => strStartsWith n.id "Q")).map (fun n => n.id)
  let labelsMap :=
    if qidsToTranslate.length = 0 then []
    else fetchWikidataLabels resp qidsToTranslate
  { nodes := st.nodes.map (applyLabels labelsMap), edges := st.edges }

/-! ## Generic lemmas -/

theorem foldl_inv {α β : Type} (P : α → Prop) (f : α → β → α)
    (step : ∀ a b, P a → P (f a b)) :
    ∀ (l : List β) (a : α), P a → P (l.foldl f a)
  | [], _, h => h
  | b :: l, a, h => foldl_inv P f step l (f a b) (step a b h)

theorem jsGet_mem {α : Type} :
    ∀ {m : List (String × α)} {k : String} {v : α}, jsGet m k = some v → (k, v) ∈ m := by
  intro m
  induction m with
  | nil => intro k v h; simp [jsGet] at h
  | cons p rest ih =>
    intro k v h
    rw [jsGet] at h
    by_cases hk : p.1 = k
    · rw [if_pos hk] at h
      cases h
      subst hk
      exact List.mem_cons_self _ _
    · rw [if_neg hk] at h
      exact List.mem_cons_of_mem _ (ih h)

theorem jsGet_eq_none {α : Type} :
    ∀ {m : List (String × α)} {k : String}, k ∉ m.map Prod.fst → jsGet m k = none := by
  intro m
  induction m with
  | nil => intro k _; rfl
  | cons p rest ih =>
    intro k hk
    rw [List.map_cons, List.mem_cons] at hk
    push_neg at hk
    rw [jsGet, if_neg (fun h => hk.1 h.symm)]
    exact ih hk.2

theorem jsGet_map_mk {α : Type} (f : String → α) :
    ∀ (ids : List String) (k : String),
      jsGet (ids.map (fun i => (i, f i))) k = if k ∈ ids then some (f k) else none := by
  intro ids
  induction ids with
  | nil => intro k; simp [jsGet]
  | cons i rest ih =>
    intro k
    by_cases hik : i = k
    · subst hik
      simp [jsGet]
    · rw [List.map_cons, jsGet, if_neg hik, ih]
      have hki : ¬(k = i) := fun h => hik h.symm
      simp [List.mem_cons, hki]

/-! ## Lemmas about the candidate sort -/

theorem mem_insertDesc {a c : Connected} :
    ∀ {l : List Connected}, a ∈ insertDesc c l ↔ (a = c ∨ a ∈ l) := by
  intro l
  induction l with
  | nil => simp [insertDesc]
  | cons x xs ih =>
    rw [insertDesc]
    by_cases h : x.score ≤ c.score
    · rw [if_pos h]
      simp [List.mem_cons]
    · rw [if_neg h]
      simp only [List.mem_cons, ih]
      tauto

theorem mem_sortDesc {a : Connected} :
    ∀ {l : List Connected}, a ∈ sortDesc l ↔ a ∈ l := by
  intro l
  induction l with
  | nil => simp [sortDesc]
  | cons x xs ih =>
    rw [sortDesc, mem_insertDesc]
    simp [List.mem_cons, ih]

theorem pairwise_insertDesc {c : Connected} :
    ∀ {l : List Connected}, l.Pairwise (fun a b => b.score ≤ a.score) →
      (insertDesc c l).Pairwise (fun a b => b.score ≤ a.score) := by
  intro l
  induction l with
  | nil => intro _; simp [insertDesc]
  | cons x xs ih =>
    intro h
    rw [List.pairwise_cons] at h
    obtain ⟨hx, hxs⟩ := h
    rw [insertDesc]
    by_cases hle : x.score ≤ c.score
    · rw [if_pos hle, List.pairwise_cons]
      refine ⟨?_, List.pairwise_cons.mpr ⟨hx, hxs⟩⟩
      intro b hb
      rcases List.mem_cons.mp hb with hb | hb
      · subst hb; exact hle
      · exact le_trans (hx b hb) hle
    · rw [if_neg hle, List.pairwise_cons]
      refine ⟨?_, ih hxs⟩
      intro b hb
      rcases mem_insertDesc.mp hb with hb | hb
      · subst hb; exact le_of_not_le hle
      · exact hx b hb

theorem pairwise_sortDesc :
    ∀ (l : List Connected), (sortDesc l).Pairwise (fun a b => b.score ≤ a.score) := by
  intro l
  induction l with
  | nil => simp [sortDesc]
  | cons x xs ih => exact pairwise_insertDesc ih

/-! ## Lemmas about the extraction phases -/

theorem mem_mapSet {x c : Connected} {m : List Connected} :
    x ∈ mapSet m c → x ∈ m ∨ x = c := by
  intro hx
  rw [mapSet] at hx
  by_cases h : m.any (fun y => y.id = c.id)
  · rw [if_pos h] at hx
    rcases List.mem_map.mp hx with ⟨y, hy, hyx⟩
    by_cases hyc : y.id = c.id
    · right; rw [if_pos hyc] at hyx; exact hyx.symm
    · left; rw [if_neg hyc] at hyx; exact hyx ▸ hy
  · rw [if_neg h] at hx
    rcases List.mem_append.mp hx with hx | hx
    · left; exact hx
    · right; simpa using hx

theorem structuralPhase_inv {e : Entity} :
    ∀ x ∈ structuralPhase e, x.score = 3 ∧ x.source = "wikidata" := by
  rw [structuralPhase]
  cases hcl : e.wikidataClaims with
  | none => simp
  | some claims =>
    have step1 : ∀ (m : List Connected) (pr : String × String),
        (∀ x ∈ m, x.score = 3 ∧ x.source = "wikidata") →
        ∀ x ∈ structuralStep claims m pr, x.score = 3 ∧ x.source = "wikidata" := by
      intro m pr hm
      rw [structuralStep]
      cases hc : jsGet claims pr.1 with
      | none => exact hm
      | some cs =>
        have step2 : ∀ (m' : List Connected) (c : WDClaim),
            (∀ x ∈ m', x.score = 3 ∧ x.source = "wikidata") →
            ∀ x ∈ (match c.mainsnak.datavalue with
                    | some (WDValue.ent qid) =>
                        if qid = "" then m'
                        else mapSet m' { id := qid, label := qid, type := pr.2, score := 3, source := "wikidata" }
                    | _ => m'),
              x.score = 3 ∧ x.source = "wikidata" := by
          intro m' c hm' x hx
          cases hdv : c.mainsnak.datavalue with
          | none => exact hm' x (by simpa [hdv] using hx)
          | some v =>
            cases v with
            | ent qid =>
              by_cases hq : qid = ""
              · exact hm' x (by simpa [hdv, hq] using hx)
              · rw [hdv] at hx
                simp only [hq, if_false] at hx
                rcases mem_mapSet hx with hx | hx
                · exact hm' x hx
                · subst hx; exact ⟨rfl, rfl⟩
            | str s => exact hm' x (by simpa [hdv] using hx)
            | coord la lo => exact hm' x (by simpa [hdv] using hx)
        exact foldl_inv (fun m' => ∀ x ∈ m', x.score = 3 ∧ x.source = "wikidata") _ step2 cs m hm
    exact foldl_inv (fun m => ∀ x ∈ m, x.score = 3 ∧ x.source = "wikidata")
      (structuralStep claims) step1 IMPORTANT_PROPERTIES [] (by simp)

theorem textualFold_mono {x : Connected} :
    ∀ (ls : List String) (idx : Nat) (m : List Connected), x ∈ m → x ∈ textualFold m ls idx := by
  intro ls
  induction ls with
  | nil => intro idx m hx; simpa [textualFold] using hx
  | cons t ts ih =>
    intro idx m hx
    rw [textualFold]
    apply ih
    by_cases hn : isLinkNoise t
    · simpa [hn] using hx
    · by_cases hh : m.any (fun c => c.id = "wiki:" ++ t)
      · simpa [hn, hh] using hx
      · simp only [hn, hh]
        exact List.mem_append_left _ hx

theorem textualFold_sub {x : Connected} :
    ∀ (ls : List String) (idx : Nat) (m : List Connected), x ∈ textualFold m ls idx →
      x ∈ m ∨ (x.source = "wikipedia" ∧ x.type = "related" ∧ isLinkNoise x.label = false
        ∧ x.id = "wiki:" ++ x.label
        ∧ ∃ j, ls.get? j = some x.label ∧ x.score = if idx + j < 10 then 2 else 1) := by
  intro ls
  induction ls with
  | nil => intro idx m hx; left; simpa [textualFold] using hx
  | cons t ts ih =>
    intro idx m hx
    rw [textualFold] at hx
    have shift : x ∈ m ∨ (x.source = "wikipedia" ∧ x.type = "related" ∧ isLinkNoise x.label = false
        ∧ x.id = "wiki:" ++ x.label
        ∧ ∃ j, ts.get? j = some x.label ∧ x.score = if (idx + 1) + j < 10 then 2 else 1) →
        x ∈ m ∨ (x.source = "wikipedia" ∧ x.type = "related" ∧ isLinkNoise x.label = false
        ∧ x.id = "wiki:" ++ x.label
        ∧ ∃ j, (t :: ts).get? j = some x.label ∧ x.score = if idx + j < 10 then 2 else 1) := by
      rintro (hx | ⟨h1, h2, h3, h4, j, hj, hs⟩)
      · exact Or.inl hx
      · refine Or.inr ⟨h1, h2, h3, h4, j + 1, ?_, ?_⟩
        · simpa using hj
        · have he : idx + 1 + j = idx + (j + 1) := by omega
          rw [he] at hs
          exact hs
    by_cases hn : isLinkNoise t
    · have hx' : x ∈ textualFold m ts (idx + 1) := by simpa [hn] using hx
      exact shift (ih (idx + 1) m hx')
    · by_cases hh : m.any (fun c => c.id = "wiki:" ++ t)
      · have hx' : x ∈ textualFold m ts (idx + 1) := by simpa [hn, hh] using hx
        exact shift (ih (idx + 1) m hx')
      · have hx' : x ∈ textualFold
            (m ++ [{ id := "wiki:" ++ t, label := t, type := "related",
                     score := if idx < 10 then 2 else 1, source := "wikipedia" }]) ts (idx + 1) := by
          simpa [hn, hh] using hx
        rcases ih (idx + 1) _ hx' with hmem | hres
        · rcases List.mem_append.mp hmem with hmem | hmem
          · exact Or.inl hmem
          · have hxe := List.mem_singleton.mp hmem
            subst hxe
            refine Or.inr ⟨rfl, rfl, by simpa using hn, rfl, 0, by simp, by simp⟩
        · exact shift (Or.inr hres)

theorem textualFold_ids_mono {a : String} :
    ∀ (ls : List String) (idx : Nat) (m : List Connected),
      a ∈ m.map (fun c => c.id) → a ∈ (textualFold m ls idx).map (fun c => c.id) := by
  intro ls idx m ha
  rcases List.mem_map.mp ha with ⟨c, hc, hca⟩
  exact List.mem_map.mpr ⟨c, textualFold_mono ls idx m hc, hca⟩

theorem textualFold_not_new {x : Connected} :
    ∀ (ls : List String) (idx : Nat) (m : List Connected),
      x ∈ textualFold m ls idx → x ∈ m ∨ x.id ∉ m.map (fun c => c.id) := by
  intro ls
  induction ls with
  | nil => intro idx m hx; left; simpa [textualFold] using hx
  | cons t ts ih =>
    intro idx m hx
    rw [textualFold] at hx
    by_cases hn : isLinkNoise t
    · exact ih (idx + 1) m (by simpa [hn] using hx)
    · by_cases hh : m.any (fun c => c.id = "wiki:" ++ t)
      · exact ih (idx + 1) m (by simpa [hn, hh] using hx)
      · have hid : "wiki:" ++ t ∉ m.map (fun c => c.id) := by
          intro hmem
          rcases List.mem_map.mp hmem with ⟨c, hc, hca⟩
          exact hh (List.any_eq_true.mpr ⟨c, hc, by simpa using hca⟩)
        have hx' : x ∈ textualFold
            (m ++ [{ id := "wiki:" ++ t, label := t, type := "related",
                     score := if idx < 10 then 2 else 1, source := "wikipedia" }]) ts (idx + 1) := by
          simpa [hn, hh] using hx
        rcases ih (idx + 1) _ hx' with hmem | hnid
        · rcases List.mem_append.mp hmem with hmem | hmem
          · exact Or.inl hmem
          · have hxe := List.mem_singleton.mp hmem
            subst hxe
            exact Or.inr hid
        · right
          intro hmem
          exact hnid (by
            rw [List.map_append]
            exact List.mem_append_left _ hmem)

theorem textualFold_complete {t : String} :
    ∀ (ls : List String) (idx : Nat) (j : Nat) (m : List Connected),
      ls.get? j = some t → isLinkNoise t = false →
      ("wiki:" ++ t) ∈ (textualFold m ls idx).map (fun c => c.id) := by
  intro ls
  induction ls with
  | nil => intro idx j m hj _; simp at hj
  | cons hd ts ih =>
    intro idx j m hj hnt
    rw [textualFold]
    cases j with
    | zero =>
      have hht : hd = t := by simpa using hj
      subst hht
      rw [hnt]
      simp only [Bool.false_eq_true, if_false]
      by_cases hh : m.any (fun c => c.id = "wiki:" ++ hd)
      · rw [if_pos hh]
        rcases List.any_eq_true.mp hh with ⟨c, hc, hcid⟩
        exact textualFold_ids_mono ts (idx + 1) m
          (List.mem_map.mpr ⟨c, hc, by simpa using hcid⟩)
      · rw [if_neg hh]
        apply textualFold_ids_mono
        rw [List.map_append]
        apply List.mem_append_right
        simp
    | succ j' =>
      have hj' : ts.get? j' = some t := by simpa using hj
      by_cases hn : isLinkNoise hd
      · rw [if_pos (by simpa using hn)]
        exact ih (idx + 1) j' m hj' hnt
      · rw [if_neg (by simpa using hn)]
        by_cases hh : m.any (fun c => c.id = "wiki:" ++ hd)
        · rw [if_pos hh]
          exact ih (idx + 1) j' m hj' hnt
        · rw [if_neg hh]
          exact ih (idx + 1) j' _ hj' hnt

theorem mem_extract_iff {c : Connected} {e : Entity} :
    c ∈ extractConnectedEntities e ↔ c ∈ textualPhase (structuralPhase e) e := by
  rw [extractConnectedEntities, mem_sortDesc]

theorem extract_of_structural_source {c : Connected} {e : Entity} :
    c ∈ extractConnectedEntities e → c.source = "wikidata" → c.score = 3 := by
  intro hc hsrc
  rw [mem_extract_iff, textualPhase] at hc
  cases hls : e.wikipediaLinks with
  | none =>
    rw [hls] at hc
    exact (structuralPhase_inv c hc).1
  | some ls =>
    rw [hls] at hc
    rcases textualFold_sub ls 0 _ hc with hc | ⟨hsrc', _⟩
    · exact (structuralPhase_inv c hc).1
    · rw [hsrc] at hsrc'
      simp at hsrc'

theorem extract_of_textual_source {c : Connected} {e : Entity} :
    c ∈ extractConnectedEntities e → c.source = "wikipedia" →
      ∃ ls, e.wikipediaLinks = some ls ∧ c.type = "related"
        ∧ isLinkNoise c.label = false ∧ c.id = "wiki:" ++ c.label
        ∧ ∃ j, ls.get? j = some c.label ∧ c.score = if j < 10 then 2 else 1 := by
  intro hc hsrc
  rw [mem_extract_iff, textualPhase] at hc
  cases hls : e.wikipediaLinks with
  | none =>
    rw [hls] at hc
    have := (structuralPhase_inv c hc).2
    rw [hsrc] at this
    simp at this
  | some ls =>
    rw [hls] at hc
    rcases textualFold_sub ls 0 _ hc with hc | ⟨_, h2, h3, h4, j, hj, hs⟩
    · have := (structuralPhase_inv c hc).2
      rw [hsrc] at this
      simp at this
    · refine ⟨ls, rfl, h2, h3, h4, j, hj, by simpa using hs⟩

theorem extract_source_cases {c : Connected} {e : Entity} :
    c ∈ extractConnectedEntities e → c.source = "wikidata" ∨ c.source = "wikipedia" := by
  intro hc
  rw [mem_extract_iff, textualPhase] at hc
  cases hls : e.wikipediaLinks with
  | none =>
    rw [hls] at hc
    exact Or.inl (structuralPhase_inv c hc).2
  | some ls =>
    rw [hls] at hc
    rcases textualFold_sub ls 0 _ hc with hc | ⟨hsrc, _⟩
    · exact Or.inl (structuralPhase_inv c hc).2
    · exact Or.inr hsrc

theorem extract_collision {c : Connected} {e : Entity} :
    c ∈ extractConnectedEntities e →
    c.id ∈ (structuralPhase e).map (fun x => x.id) →
    c.score = 3 ∧ c.source = "wikidata" := by
  intro hc hid
  rw [mem_extract_iff, textualPhase] at hc
  cases hls : e.wikipediaLinks with
  | none =>
    rw [hls] at hc
    exact structuralPhase_inv c hc
  | some ls =>
    rw [hls] at hc
    rcases textualFold_not_new ls 0 _ hc with hc | hnid
    · exact structuralPhase_inv c hc
    · exact absurd hid hnid

theorem extract_sorted (e : Entity) :
    (extractConnectedEntities e).Pairwise (fun a b => b.score ≤ a.score) := by
  rw [extractConnectedEntities]
  exact pairwise_sortDesc _

/-! ## Lemmas about the BFS construction -/

/-- The invariant maintained by the BFS state: the visited set lists the
node ids in order, node ids are unique, and all edge endpoints are
recorded node ids. -/
def GoodState (st : BuildState) : Prop :=
  st.visited = st.nodes.map (fun n => n.id)
  ∧ (st.nodes.map (fun n => n.id)).Nodup
  ∧ ∀ ed ∈ st.edges, ed.source ∈ st.visited ∧ ed.target ∈ st.visited

theorem foldl_expandStep_spec (srcId : String) (level : Nat) :
    ∀ (cs : List Connected) (st : BuildState),
      GoodState st → srcId ∈ st.visited →
      ∃ ns eds,
        cs.foldl (expandStep srcId level) st =
          { nodes := st.nodes ++ ns, edges := st.edges ++ eds,
            visited := st.visited ++ ns.map (fun n => n.id) }
        ∧ ns.length ≤ cs.length
        ∧ (∀ n ∈ ns, n.isCenter = false ∧ n.level = level + 1 ∧
             ∃ c ∈ cs, n.id = c.id ∧ n.label = c.label ∧ n.type = c.type ∧ n.score = some c.score)
        ∧ (∀ ed ∈ eds, ∃ c ∈ cs, ed = mkEdge srcId c.id c.type c.source c.score)
        ∧ GoodState (cs.foldl (expandStep srcId level) st) := by
  intro cs
  induction cs with
  | nil =>
    intro st hG _
    refine ⟨[], [], ?_, ?_, ?_, ?_, ?_⟩ <;> simp [hG]
  | cons c cs ih =>
    intro st hG hsrc
    obtain ⟨hvis, hnodup, hedges⟩ := hG
    by_cases hmem : c.id ∈ st.visited
    · have hstep : expandStep srcId level st c =
          { st with edges := st.edges ++ [mkEdge srcId c.id c.type c.source c.score] } := by
        rw [expandStep, if_pos hmem]
      have hG' : GoodState (expandStep srcId level st c) := by
        rw [hstep]
        refine ⟨hvis, hnodup, ?_⟩
        intro ed hed
        rcases List.mem_append.mp hed with hed | hed
        · exact hedges ed hed
        · have := List.mem_singleton.mp hed
          subst this
          exact ⟨hsrc, hmem⟩
      have hsrc' : srcId ∈ (expandStep srcId level st c).visited := by
        rw [hstep]; exact hsrc
      obtain ⟨ns, eds, heq, hlen, hns, heds, hG''⟩ := ih (expandStep srcId level st c) hG' hsrc'
      refine ⟨ns, mkEdge srcId c.id c.type c.source c.score :: eds, ?_, ?_, ?_, ?_, ?_⟩
      · rw [List.foldl_cons, heq, hstep]
        simp [List.append_assoc]
      · exact Nat.le_succ_of_le hlen
      · intro n hn
        obtain ⟨h1, h2, cc, hcc, hrest⟩ := hns n hn
        exact ⟨h1, h2, cc, List.mem_cons_of_mem _ hcc, hrest⟩
      · intro ed hed
        rcases List.mem_cons.mp hed with hed | hed
        · exact ⟨c, List.mem_cons_self _ _, hed⟩
        · obtain ⟨cc, hcc, hrest⟩ := heds ed hed
          exact ⟨cc, List.mem_cons_of_mem _ hcc, hrest⟩
      · rw [List.foldl_cons]; exact hG''
    · have hstep : expandStep srcId level st c =
          { nodes := st.nodes ++ [{ id := c.id, label := c.label, type := c.type,
                                    level := level + 1, isCenter := false,
                                    score := some c.score, description := none,
                                    thumbnail := none }],
            edges := st.edges ++ [mkEdge srcId c.id c.type c.source c.score],
            visited := st.visited ++ [c.id] } := by
        rw [expandStep, if_neg hmem]
      have hG' : GoodState (expandStep srcId level st c) := by
        rw [hstep]
        refine ⟨?_, ?_, ?_⟩
        · simp [hvis]
        · rw [List.map_append]
          rw [List.nodup_append]
          refine ⟨hnodup, by simp, ?_⟩
          intro a ha hb
          simp only [List.map_cons, List.map_nil, List.mem_singleton] at hb
          subst hb
          exact hmem (hvis ▸ ha)
        · intro ed hed
          rcases List.mem_append.mp hed with hed | hed
          · obtain ⟨h1, h2⟩ := hedges ed hed
            exact ⟨List.mem_append_left _ h1, List.mem_append_left _ h2⟩
          · have := List.mem_singleton.mp hed
            subst this
            exact ⟨List.mem_append_left _ hsrc, List.mem_append_right _ (by simp [mkEdge])⟩
      have hsrc' : srcId ∈ (expandStep srcId level st c).visited := by
        rw [hstep]
        exact List.mem_append_left _ hsrc
      obtain ⟨ns, eds, heq, hlen, hns, heds, hG''⟩ := ih (expandStep srcId level st c) hG' hsrc'
      refine ⟨{ id := c.id, label := c.label, type := c.type, level := level + 1,
                isCenter := false, score := some c.score, description := none,
                thumbnail := none } :: ns,
              mkEdge srcId c.id c.type c.source c.score :: eds, ?_, ?_, ?_, ?_, ?_⟩
      · rw [List.foldl_cons, heq, hstep]
        simp [List.append_assoc]
      · simpa using Nat.succ_le_succ hlen
      · intro n hn
        rcases List.mem_cons.mp hn with hn | hn
        · subst hn
          exact ⟨rfl, rfl, c, List.mem_cons_self _ _, rfl, rfl, rfl, rfl⟩
        · obtain ⟨h1, h2, cc, hcc, hrest⟩ := hns n hn
          exact ⟨h1, h2, cc, List.mem_cons_of_mem _ hcc, hrest⟩
      · intro ed hed
        rcases List.mem_cons.mp hed with hed | hed
        · exact ⟨c, List.mem_cons_self _ _, hed⟩
        · obtain ⟨cc, hcc, hrest⟩ := heds ed hed
          exact ⟨cc, List.mem_cons_of_mem _ hcc, hrest⟩
      · rw [List.foldl_cons]; exact hG''

theorem buildGraphCore_spec (center : Entity) (depth maxN : Nat) :
    ∃ ns eds,
      buildGraphCore center depth maxN =
        { nodes := createNode center 0 true :: ns, edges := eds,
          visited := center.id :: ns.map (fun n => n.id) }
      ∧ ns.length ≤ (selectedCandidates center maxN).length
      ∧ (∀ n ∈ ns, n.isCenter = false ∧ n.level = 1 ∧
           ∃ c ∈ selectedCandidates center maxN,
             n.id = c.id ∧ n.label = c.label ∧ n.type = c.type ∧ n.score = some c.score)
      ∧ (∀ ed ∈ eds, ∃ c ∈ selectedCandidates center maxN,
           ed = mkEdge center.id c.id c.type c.source c.score)
      ∧ GoodState (buildGraphCore center depth maxN) := by
  have hG0 : GoodState
      { nodes := [createNode center 0 true], edges := [], visited := [center.id] } := by
    refine ⟨by simp [createNode], by simp, by simp⟩
  by_cases hd : depth ≤ 0
  · have hcore : buildGraphCore center depth maxN =
        { nodes := [createNode center 0 true], edges := [], visited := [center.id] } := by
      rw [buildGraphCore, bfsLoop, if_pos hd, bfsLoop]
    refine ⟨[], [], ?_, ?_, ?_, ?_, ?_⟩
    · rw [hcore]; simp
    · simp
    · simp
    · simp
    · rw [hcore]; exact hG0
  · have hsrc0 : center.id ∈
        ({ nodes := [createNode center 0 true], edges := [], visited := [center.id] } : BuildState).visited := by
      simp
    obtain ⟨ns, eds, heq, hlen, hns, heds, hG⟩ :=
      foldl_expandStep_spec center.id 0 (selectedCandidates center maxN)
        { nodes := [createNode center 0 true], edges := [], visited := [center.id] } hG0 hsrc0
    have hcore : buildGraphCore center depth maxN =
        (selectedCandidates center maxN).foldl (expandStep center.id 0)
          { nodes := [createNode center 0 true], edges := [], visited := [center.id] } := by
      rw [buildGraphCore, bfsLoop, if_neg hd, bfsLoop]
    refine ⟨ns, eds, ?_, hlen, ?_, heds, ?_⟩
    · rw [hcore, heq]
      simp
    · intro n hn
      obtain ⟨h1, h2, cc, hcc, hrest⟩ := hns n hn
      exact ⟨h1, h2, cc, hcc, hrest⟩
    · rw [hcore]; exact hG

/-- The labels map computed inside buildGraph. -/
def labelsMapOf (center : Entity) (depth maxN : Nat) (resp : LabelsResponse) : List (String × String) :=
  let st := buildGraphCore center depth maxN
  let qidsToTranslate := (st.nodes.filter (fun n => strStartsWith n.id "Q")).map (fun n => n.id)
  if qidsToTranslate.length = 0 then [] else fetchWikidataLabels resp qidsToTranslate

theorem buildGraph_def (center : Entity) (depth maxN : Nat) (resp : LabelsResponse) :
    buildGraph center depth maxN resp =
      { nodes := (buildGraphCore center depth maxN).nodes.map
          (applyLabels (labelsMapOf center depth maxN resp)),
        edges := (buildGraphCore center depth maxN).edges } := rfl

theorem applyLabels_id (lm : List (String × String)) (n : Node) :
    (applyLabels lm n).id = n.id := by
  rw [applyLabels]
  cases jsGet lm n.id with
  | none => rfl
  | some l =>
    by_cases hl : l = ""
    · simp [hl]
    · simp [hl]

theorem applyLabels_isCenter (lm : List (String × String)) (n : Node) :
    (applyLabels lm n).isCenter = n.isCenter := by
  rw [applyLabels]
  cases jsGet lm n.id with
  | none => rfl
  | some l =>
    by_cases hl : l = ""
    · simp [hl]
    · simp [hl]

theorem applyLabels_level (lm : List (String × String)) (n : Node) :
    (applyLabels lm n).level = n.level := by
  rw [applyLabels]
  cases jsGet lm n.id with
  | none => rfl
  | some l =>
    by_cases hl : l = ""
    · simp [hl]
    · simp [hl]

theorem applyLabels_of_absent {lm : List (String × String)} {n : Node}
    (h : n.id ∉ lm.map Prod.fst) : applyLabels lm n = n := by
  rw [applyLabels, jsGet_eq_none h]

theorem buildGraph_nodes_ids (center : Entity) (depth maxN : Nat) (resp : LabelsResponse) :
    (buildGraph center depth maxN resp).nodes.map (fun n => n.id) =
      (buildGraphCore center depth maxN).nodes.map (fun n => n.id) := by
  rw [buildGraph_def]
  show ((buildGraphCore center depth maxN).nodes.map _).map _ = _
  rw [List.map_map]
  exact List.map_congr_left (fun n _ => applyLabels_id _ n)

theorem mem_selected_sub {c : Connected} {center : Entity} {maxN : Nat} :
    c ∈ selectedCandidates center maxN →
      c ∈ extractConnectedEntities center ∧ 2 ≤ c.score := by
  intro hc
  rw [selectedCandidates] at hc
  have h1 := List.mem_of_mem_take hc
  exact ⟨List.mem_of_mem_filter h1, by simpa using List.of_mem_filter h1⟩

theorem buildGraph_noncenter (center : Entity) (depth maxN : Nat) (resp : LabelsResponse) :
    ∀ n ∈ (buildGraph center depth maxN resp).nodes, n.isCenter = false →
      ∃ c ∈ selectedCandidates center maxN, n.id = c.id := by
  obtain ⟨ns, eds, hcore, hlen, hns, heds, hG⟩ := buildGraphCore_spec center depth maxN
  intro n hn hnc
  rw [buildGraph_def] at hn
  rcases List.mem_map.mp hn with ⟨nz, hnz, hFn⟩
  have hncore : (buildGraphCore center depth maxN).nodes = createNode center 0 true :: ns := by
    rw [hcore]
  rw [hncore] at hnz
  rcases List.mem_cons.mp hnz with h | h
  · subst h
    rw [← hFn, applyLabels_isCenter] at hnc
    simp [createNode] at hnc
  · obtain ⟨_, _, c, hc, hid, _⟩ := hns nz h
    exact ⟨c, hc, by rw [← hFn, applyLabels_id, hid]⟩

/-- C3: in every built graph, each edge endpoint names an existing node,
node ids are unique, and exactly one node is the center. -/
theorem graph_invariants_c3 (center : Entity) (depth maxN : Nat) (resp : LabelsResponse) :
    (∀ ed ∈ (buildGraph center depth maxN resp).edges,
       (∃ n ∈ (buildGraph center depth maxN resp).nodes, n.id = ed.source)
       ∧ ∃ n ∈ (buildGraph center depth maxN resp).nodes, n.id = ed.target)
    ∧ ((buildGraph center depth maxN resp).nodes.map (fun n => n.id)).Nodup
    ∧ ((buildGraph center depth maxN resp).nodes.filter (fun n => n.isCenter)).length = 1 := by
  obtain ⟨ns, eds, hcore, hlen, hns, heds, hG⟩ := buildGraphCore_spec center depth maxN
  obtain ⟨hvis, hnodup, hedges⟩ := hG
  refine ⟨?_, ?_, ?_⟩
  · intro ed hed
    have hed' : ed ∈ (buildGraphCore center depth maxN).edges := by
      rw [buildGraph_def] at hed
      exact hed
    obtain ⟨h1, h2⟩ := hedges ed hed'
    rw [hvis] at h1 h2
    constructor
    · have : ed.source ∈ (buildGraph center depth maxN resp).nodes.map (fun n => n.id) := by
        rw [buildGraph_nodes_ids]; exact h1
      rcases List.mem_map.mp this with ⟨n, hn, hid⟩
      exact ⟨n, hn, hid⟩
    · have : ed.target ∈ (buildGraph center depth maxN resp).nodes.map (fun n => n.id) := by
        rw [buildGraph_nodes_ids]; exact h2
      rcases List.mem_map.mp this with ⟨n, hn, hid⟩
      exact ⟨n, hn, hid⟩
  · rw [buildGraph_nodes_ids]
    exact hnodup
  · have hncore : (buildGraphCore center depth maxN).nodes = createNode center 0 true :: ns := by
      rw [hcore]
    rw [buildGraph_def]
    show (((buildGraphCore center depth maxN).nodes.map _).filter _).length = 1
    rw [hncore, List.map_cons, List.filter_cons]
    have hc1 : (applyLabels (labelsMapOf center depth maxN resp) (createNode center 0 true)).isCenter = true := by
      rw [applyLabels_isCenter]
      rfl
    rw [hc1]
    have hrest : ((ns.map (applyLabels (labelsMapOf center depth maxN resp))).filter
        (fun n => n.isCenter)).length = 0 := by
      rw [List.length_eq_zero, List.filter_eq_nil_iff]
      intro n hn
      rcases List.mem_map.mp hn with ⟨nz, hnz, hFn⟩
      obtain ⟨hnc, _, _⟩ := hns nz hnz
      rw [← hFn, applyLabels_isCenter, hnc]
      simp
    simp [hrest]

/-! ## Concrete fixtures used by the witnesses -/

/-- A small concrete entity: two structural relations and three textual
links, one of which is noise. -/
def centerW : Entity :=
  { id := "Q1", name := "Centre", description := some "d", type := "person",
    identifiers := [],
    sources :=
      [("wikidata", SourceData.wikidata
          [("P800", [{ mainsnak := { datavalue := some (WDValue.ent "Q9") } }]),
           ("P136", [{ mainsnak := { datavalue := some (WDValue.ent "Q10") } }])] []),
       ("wikipedia", SourceData.wikipedia none (some "th.jpg")
          (some ["Jazz", "1959", "Saxophone"]))] }

/-- An entity in which a structural claim id collides with the synthetic id
of a textual link. -/
def centerColl : Entity :=
  { id := "Q1", name := "Centre", description := none, type := "entity",
    identifiers := [],
    sources :=
      [("wikidata", SourceData.wikidata
          [("P800", [{ mainsnak := { datavalue := some (WDValue.ent "wiki:Jazz") } }])] []),
       ("wikipedia", SourceData.wikipedia none none (some ["Jazz", "Bar"]))] }

theorem graph_invariants_c3_witness :
    ∃ n ∈ (buildGraph centerW 1 20 LabelsResponse.fail).nodes,
      n.id = (mkEdge "Q1" "Q9" "notable_work" "wikidata" 3).target := by
  refine ((graph_invariants_c3 centerW 1 20 LabelsResponse.fail).1
    (mkEdge "Q1" "Q9" "notable_work" "wikidata" 3) ?_).2
  rw [show (buildGraph centerW 1 20 LabelsResponse.fail).edges =
      [mkEdge "Q1" "Q9" "notable_work" "wikidata" 3,
       mkEdge "Q1" "Q10" "genre" "wikidata" 3,
       mkEdge "Q1" "wiki:Jazz" "related" "wikipedia" 2,
       mkEdge "Q1" "wiki:Saxophone" "related" "wikipedia" 2] from by with_unfolding_all rfl]
  exact List.mem_cons_self _ _

/-- C4: candidates below score 2 are dropped before the cap, at most
maxNodesPerLevel survivors are kept in descending score order, and no level
of the graph gains more than maxNodesPerLevel new nodes. -/
theorem breadth_cap_c4 (center : Entity) (depth maxN : Nat) (resp : LabelsResponse) :
    selectedCandidates center maxN =
      ((extractConnectedEntities center).filter (fun c => 2 ≤ c.score)).take maxN
    ∧ (∀ c ∈ selectedCandidates center maxN, 2 ≤ c.score)
    ∧ (selectedCandidates center maxN).length ≤ maxN
    ∧ (selectedCandidates center maxN).Pairwise (fun a b => b.score ≤ a.score)
    ∧ ∀ l, 1 ≤ l →
        ((buildGraph center depth maxN resp).nodes.filter (fun n => n.level = l)).length ≤ maxN := by
  obtain ⟨ns, eds, hcore, hlen, hns, heds, hG⟩ := buildGraphCore_spec center depth maxN
  refine ⟨rfl, ?_, ?_, ?_, ?_⟩
  · intro c hc
    exact (mem_selected_sub hc).2
  · rw [selectedCandidates]
    exact List.length_take_le _ _
  · rw [selectedCandidates]
    have hsub : (((extractConnectedEntities center).filter (fun c => 2 ≤ c.score)).take maxN).Sublist
        (extractConnectedEntities center) :=
      (List.take_sublist _ _).trans (List.filter_sublist _)
    exact (extract_sorted center).sublist hsub
  · intro l hl
    have hmaps : ∀ (l' : List Node),
        ((l'.map (applyLabels (labelsMapOf center depth maxN resp))).filter
          (fun n => n.level = l)).length =
        (l'.filter (fun n => n.level = l)).length := by
      intro l'
      induction l' with
      | nil => simp
      | cons a t ih =>
        rw [List.map_cons, List.filter_cons, List.filter_cons, applyLabels_level]
        by_cases hpa : a.level = l
        · simp only [hpa]
          simp [ih]
        · simp only [hpa]
          simp [ih]
    rw [buildGraph_def]
    show (((buildGraphCore center depth maxN).nodes.map _).filter _).length ≤ maxN
    rw [hmaps]
    have hncore : (buildGraphCore center depth maxN).nodes = createNode center 0 true :: ns := by
      rw [hcore]
    rw [hncore, List.filter_cons]
    have hc0 : ¬((createNode center 0 true).level = l) := by
      simp only [createNode]
      omega
    simp only [hc0]
    have hle1 : (ns.filter (fun n => n.level = l)).length ≤ ns.length :=
      List.length_filter_le _ _
    have hle2 : ns.length ≤ maxN := by
      refine hlen.trans ?_
      rw [selectedCandidates]
      exact List.length_take_le _ _
    simp only [decide_False, Bool.false_eq_true, if_false]
    omega

theorem breadth_cap_c4_witness :
    2 ≤ (Connected.mk "Q9" "Q9" "notable_work" 3 "wikidata").score
    ∧ ((buildGraph centerW 1 2 LabelsResponse.fail).nodes.filter
        (fun n => n.level = 1)).length ≤ 2 := by
  constructor
  · refine (breadth_cap_c4 centerW 1 2 LabelsResponse.fail).2.1 _ ?_
    rw [show selectedCandidates centerW 2 =
        [Connected.mk "Q9" "Q9" "notable_work" 3 "wikidata",
         Connected.mk "Q10" "Q10" "genre" 3 "wikidata"] from by with_unfolding_all rfl]
    exact List.mem_cons_self _ _
  · exact (breadth_cap_c4 centerW 1 2 LabelsResponse.fail).2.2.2.2 1 (by decide)

/-- C10: the BFS queue is never enqueued after initialization, so for any
depth of at least one the graph equals the depth-one graph and no node sits
beyond level one. -/
theorem depth_irrelevant_c10 (center : Entity) (maxN : Nat) (resp : LabelsResponse)
    (d : Nat) (hd : 1 ≤ d) :
    buildGraph center d maxN resp = buildGraph center 1 maxN resp
    ∧ ∀ n ∈ (buildGraph center d maxN resp).nodes, n.level ≤ 1 := by
  have h1 : ¬(d ≤ 0) := by omega
  have h2 : ¬((1 : Nat) ≤ 0) := by omega
  have hcore : buildGraphCore center d maxN = buildGraphCore center 1 maxN := by
    rw [buildGraphCore, buildGraphCore]
    simp only [bfsLoop]
    rw [if_neg h1, if_neg h2]
  constructor
  · have hlm : labelsMapOf center d maxN resp = labelsMapOf center 1 maxN resp := by
      rw [labelsMapOf, labelsMapOf, hcore]
    rw [buildGraph_def, buildGraph_def, hcore, hlm]
  · obtain ⟨ns, eds, hcoreS, hlen, hns, heds, hG⟩ := buildGraphCore_spec center d maxN
    intro n hn
    rw [buildGraph_def] at hn
    rcases List.mem_map.mp hn with ⟨nz, hnz, hFn⟩
    have hncore : (buildGraphCore center d maxN).nodes = createNode center 0 true :: ns := by
      rw [hcoreS]
    rw [hncore] at hnz
    rw [← hFn, applyLabels_level]
    rcases List.mem_cons.mp hnz with h | h
    · subst h
      simp [createNode]
    · obtain ⟨_, hlevel, _⟩ := hns nz h
      omega

theorem depth_irrelevant_c10_witness :
    buildGraph centerW 3 20 LabelsResponse.fail = buildGraph centerW 1 20 LabelsResponse.fail :=
  (depth_irrelevant_c10 centerW 20 LabelsResponse.fail 3 (by decide)).1

theorem wikiPrefix_cancel {a b : String} (h : "wiki:" ++ a = "wiki:" ++ b) : a = b := by
  have hd : ("wiki:" ++ a).data = ("wiki:" ++ b).data := congrArg String.data h
  have hd' : "wiki:".data ++ a.data = "wiki:".data ++ b.data := by
    simpa using hd
  exact String.ext (List.append_cancel_left hd')

/-- C6: the noise filter drops pure-numeric titles, century titles,
technical-namespace titles, list-of titles and month titles, and no noise
title ever becomes a graph node through a textual link. -/
theorem noise_filter_c6 (center : Entity) (depth maxN : Nat) (resp : LabelsResponse)
    (t : String) (hnoise : isLinkNoise t = true)
    (hstruct : ∀ c ∈ extractConnectedEntities center,
      c.source = "wikidata" → ∀ u, c.id ≠ "wiki:" ++ u) :
    (∀ n ∈ (buildGraph center depth maxN resp).nodes,
       n.isCenter = false → n.id ≠ "wiki:" ++ t)
    ∧ (∀ u : String, u.data ≠ [] → u.data.all Char.isDigit = true → isLinkNoise u = true)
    ∧ (∀ u : String, jsIncludes u "siècle" = true → isLinkNoise u = true)
    ∧ (∀ u p, p ∈ technicalPrefixes → strStartsWith u p = true → isLinkNoise u = true)
    ∧ (∀ u m, m ∈ monthNames → jsIncludes (jsToLower u) m = true → isLinkNoise u = true)
    ∧ isLinkNoise "1959" = true ∧ isLinkNoise "19e siècle" = true
    ∧ isLinkNoise "Liste de jazzmen" = true ∧ isLinkNoise "Catégorie:Jazz" = true
    ∧ isLinkNoise "14 juillet" = true := by
  refine ⟨?_, ?_, ?_, ?_, ?_, by with_unfolding_all rfl, by with_unfolding_all rfl,
    by with_unfolding_all rfl, by with_unfolding_all rfl, by with_unfolding_all rfl⟩
  · intro n hn hnc heq
    obtain ⟨c, hc, hid⟩ := buildGraph_noncenter center depth maxN resp n hn hnc
    obtain ⟨hcx, _⟩ := mem_selected_sub hc
    rcases extract_source_cases hcx with hsrc | hsrc
    · exact hstruct c hcx hsrc t (hid ▸ heq)
    · obtain ⟨ls, _, _, hlnoise, hcid, _⟩ := extract_of_textual_source hcx hsrc
      have : "wiki:" ++ c.label = "wiki:" ++ t := by
        rw [← hcid, ← hid, heq]
      have hlab : c.label = t := wikiPrefix_cancel this
      rw [hlab, hnoise] at hlnoise
      exact Bool.true_eq_false.mp hlnoise
  · intro u hne hdig
    have hie : u.isEmpty = false := by
      rw [Bool.eq_false_iff]
      intro h
      exact hne (congrArg String.data ((String.isEmpty_iff u).mp h))
    rw [isLinkNoise, hie, hdig]
    simp
  · intro u hsub
    rw [isLinkNoise]
    by_cases h1 : (!u.isEmpty && u.data.all Char.isDigit) = true
    · rw [if_pos h1]
    · rw [if_neg h1, if_pos hsub]
  · intro u p hp hpre
    rw [isLinkNoise]
    by_cases h1 : (!u.isEmpty && u.data.all Char.isDigit) = true
    · rw [if_pos h1]
    · rw [if_neg h1]
      by_cases h2 : jsIncludes u "siècle" = true
      · rw [if_pos h2]
      · rw [if_neg h2,
          if_pos (List.any_eq_true.mpr ⟨p, hp, hpre⟩)]
  · intro u m hm hsub
    rw [isLinkNoise]
    by_cases h1 : (!u.isEmpty && u.data.all Char.isDigit) = true
    · rw [if_pos h1]
    · rw [if_neg h1]
      by_cases h2 : jsIncludes u "siècle" = true
      · rw [if_pos h2]
      · rw [if_neg h2]
        by_cases h3 : technicalPrefixes.any (fun p => strStartsWith u p) = true
        · rw [if_pos h3]
        · rw [if_neg h3,
            if_pos (List.any_eq_true.mpr ⟨m, hm, hsub⟩)]

/-- A center entity with textual links only, used to instantiate C6. -/
def centerT : Entity :=
  { id := "Q2", name := "T", description := none, type := "entity", identifiers := [],
    sources := [("wikipedia", SourceData.wikipedia none none (some ["Jazz", "1959"]))] }

theorem noise_filter_c6_witness :
    (Node.mk "wiki:Jazz" "Jazz" "related" 1 false (some 2) none none).id ≠
      "wiki:" ++ "1959" := by
  refine (noise_filter_c6 centerT 1 20 LabelsResponse.fail "1959"
    (by with_unfolding_all rfl) ?_).1
    (Node.mk "wiki:Jazz" "Jazz" "related" 1 false (some 2) none none) ?_ rfl
  · rw [show extractConnectedEntities centerT =
        [Connected.mk "wiki:Jazz" "Jazz" "related" 2 "wikipedia"] from by with_unfolding_all rfl]
    intro c hc hsrc u heq
    have hce := List.mem_singleton.mp hc
    subst hce
    exact absurd hsrc (by decide)
  · rw [show (buildGraph centerT 1 20 LabelsResponse.fail).nodes =
        [Node.mk "Q2" "T" "entity" 0 true none none none,
         Node.mk "wiki:Jazz" "Jazz" "related" 1 false (some 2) none none] from by
      with_unfolding_all rfl]
    exact List.mem_cons_of_mem _ (List.mem_singleton.mpr rfl)

/-- C5: structural relations score 3, textual links score 2 within the first
ten positions and 1 afterwards, a textual id colliding with a structural id
keeps score 3, and every edge carries its candidate score. -/
theorem scoring_c5 (e : Entity) :
    (∀ c ∈ extractConnectedEntities e, c.source = "wikidata" → c.score = 3)
    ∧ (∀ c ∈ extractConnectedEntities e, c.source = "wikipedia" →
        ∃ ls, e.wikipediaLinks = some ls ∧ c.id = "wiki:" ++ c.label
          ∧ ∃ j, ls.get? j = some c.label ∧ c.score = if j < 10 then 2 else 1)
    ∧ (∀ c ∈ extractConnectedEntities e,
        c.id ∈ (structuralPhase e).map (fun x => x.id) → c.score = 3 ∧ c.source = "wikidata")
    ∧ (∀ depth maxN resp, ∀ ed ∈ (buildGraph e depth maxN resp).edges,
        ∃ c ∈ extractConnectedEntities e,
          ed.target = c.id ∧ ed.value = c.score ∧ ed.origin = c.source) := by
  refine ⟨?_, ?_, ?_, ?_⟩
  · intro c hc hsrc
    exact extract_of_structural_source hc hsrc
  · intro c hc hsrc
    obtain ⟨ls, hls, _, _, hid, j, hj, hs⟩ := extract_of_textual_source hc hsrc
    exact ⟨ls, hls, hid, j, hj, hs⟩
  · intro c hc hid
    exact extract_collision hc hid
  · intro depth maxN resp ed hed
    obtain ⟨ns, eds, hcore, hlen, hns, heds, hG⟩ := buildGraphCore_spec e depth maxN
    have hed' : ed ∈ (buildGraphCore e depth maxN).edges := by
      rw [buildGraph_def] at hed
      exact hed
    have hedsl : (buildGraphCore e depth maxN).edges = eds := by rw [hcore]
    rw [hedsl] at hed'
    obtain ⟨c, hc, hmk⟩ := heds ed hed'
    exact ⟨c, (mem_selected_sub hc).1, by rw [hmk]; exact rfl, by rw [hmk]; exact rfl,
      by rw [hmk]; exact rfl⟩

theorem scoring_c5_witness :
    (Connected.mk "wiki:Jazz" "wiki:Jazz" "notable_work" 3 "wikidata").score = 3
    ∧ (Connected.mk "wiki:Jazz" "wiki:Jazz" "notable_work" 3 "wikidata").source = "wikidata" := by
  refine (scoring_c5 centerColl).2.2.1 _ ?_ ?_
  · rw [show extractConnectedEntities centerColl =
        [Connected.mk "wiki:Jazz" "wiki:Jazz" "notable_work" 3 "wikidata",
         Connected.mk "wiki:Bar" "Bar" "related" 2 "wikipedia"] from by with_unfolding_all rfl]
    exact List.mem_cons_self _ _
  · rw [show (structuralPhase centerColl).map (fun x => x.id) = ["wiki:Jazz"] from by
      with_unfolding_all rfl]
    exact List.mem_singleton.mpr rfl

/-! ## Type inference (C8) -/

/-- A record whose first instance-of value is the film identifier. -/
def wdFilm : WikidataEntity :=
  { labels := [], descriptions := [],
    claims := [("P31", [{ mainsnak := { datavalue := some (WDValue.ent "Q11424") } }])],
    sitelinks := [] }

/-- A record with no instance-of claim. -/
def wdEmpty : WikidataEntity :=
  { labels := [], descriptions := [], claims := [], sitelinks := [] }

/-- C8 counterexample: a record whose first instance-of value is the film
identifier is classified as film, which is outside the claimed codomain
of person, place, work, concept, entity. -/
theorem type_inference_c8_counterexample :
    inferEntityType wdFilm = "film"
    ∧ "film" ∉ ["person", "place", "work", "concept", "entity"] :=
  ⟨by decide, by decide⟩

/-- C8 (amended): type inference reads only the first instance-of claim
value, maps it through the fixed table, defaults to entity, and always
returns one of person, place, film, series, book, concept, entity. -/
theorem type_inference_c8_amended (wd : WikidataEntity) :
    inferEntityType wd ∈ ["person", "place", "film", "series", "book", "concept", "entity"]
    ∧ (∀ c rest, jsGet wd.claims "P31" = some (c :: rest) →
        inferEntityType wd =
          inferEntityType { labels := wd.labels, descriptions := wd.descriptions,
                            claims := [("P31", [c])], sitelinks := wd.sitelinks })
    ∧ (jsGet wd.claims "P31" = none → inferEntityType wd = "entity")
    ∧ (∀ c rest qid, jsGet wd.claims "P31" = some (c :: rest) →
        c.mainsnak.datavalue = some (WDValue.ent qid) → jsGet typeMap qid = none →
        inferEntityType wd = "entity") := by
  have htm : ∀ p ∈ typeMap, p.2 ∈
      ["person", "place", "film", "series", "book", "concept", "entity"] := by decide
  refine ⟨?_, ?_, ?_, ?_⟩
  · rcases hP : jsGet wd.claims "P31" with _ | cs
    · simp [inferEntityType, hP]
    · rcases cs with _ | ⟨c, rest⟩
      · simp [inferEntityType, hP]
      · rcases hdv : c.mainsnak.datavalue with _ | v
        · simp [inferEntityType, hP, hdv]
        · rcases v with qid | s | ⟨la, lo⟩
          · rcases hq : jsGet typeMap qid with _ | tv
            · simp [inferEntityType, hP, hdv, hq]
            · have := htm (qid, tv) (jsGet_mem hq)
              simpa [inferEntityType, hP, hdv, hq] using this
          · simp [inferEntityType, hP, hdv]
          · simp [inferEntityType, hP, hdv]
  · intro c rest hP
    simp [inferEntityType, hP, jsGet]
  · intro hP
    simp [inferEntityType, hP]
  · intro c rest qid hP hdv hq
    simp [inferEntityType, hP, hdv, hq]

theorem type_inference_c8_witness :
    inferEntityType wdFilm ∈ ["person", "place", "film", "series", "book", "concept", "entity"]
    ∧ inferEntityType wdEmpty = "entity" :=
  ⟨(type_inference_c8_amended wdFilm).1,
   (type_inference_c8_amended wdEmpty).2.2.1 (by decide)⟩

/-! ## Label resolution pass (C9) -/

/-- A structural-only center entity used for the label-pass claims. -/
def centerS9 : Entity :=
  { id := "Q1", name := "Centre", description := none, type := "person", identifiers := [],
    sources := [("wikidata", SourceData.wikidata
        [("P800", [{ mainsnak := { datavalue := some (WDValue.ent "Q9") } }])] [])] }

/-- A remote label table with distinct French and English labels. -/
def tblW : String → String → Option String :=
  fun id lg =>
    if lg = "fr" then some ("FR-" ++ id)
    else if lg = "en" then some ("EN-" ++ id) else none

theorem strStartsWith_Q_ne_empty {k : String} (h : strStartsWith k "Q" = true) : k ≠ "" := by
  intro hk
  subst hk
  rw [show strStartsWith "" "Q" = false from by with_unfolding_all rfl] at h
  exact Bool.false_ne_true h

theorem labelsMapOf_keys (center : Entity) (depth maxN : Nat) (resp : LabelsResponse) :
    ∀ k ∈ (labelsMapOf center depth maxN resp).map Prod.fst, strStartsWith k "Q" = true := by
  intro k hk
  simp only [labelsMapOf] at hk
  by_cases h0 : (((buildGraphCore center depth maxN).nodes.filter
      (fun n => strStartsWith n.id "Q")).map (fun n => n.id)).length = 0
  · rw [if_pos h0] at hk
    simp at hk
  · rw [if_neg h0, fetchWikidataLabels.eq_def, if_neg h0] at hk
    cases resp with
    | fail => simp at hk
    | noEntities => simp at hk
    | entities tbl =>
      rw [List.map_map] at hk
      rcases List.mem_map.mp hk with ⟨q, hq, hqk⟩
      rcases List.mem_map.mp hq with ⟨n, hn, hnq⟩
      have hfil := List.mem_filter.mp hn
      rw [← hqk, ← hnq]
      simpa using hfil.2

theorem fetchWikidataLabels_fail (ids : List String) :
    fetchWikidataLabels LabelsResponse.fail ids = [] := by
  rw [fetchWikidataLabels]
  split
  · rfl
  · rfl

theorem labelsMapOf_fail (center : Entity) (depth maxN : Nat) :
    labelsMapOf center depth maxN LabelsResponse.fail = [] := by
  simp only [labelsMapOf]
  split
  · rfl
  · exact fetchWikidataLabels_fail _

theorem applyLabels_nil (n : Node) : applyLabels [] n = n := rfl

/-- C9 counterexample: with the current locale set to English, the label
pass still resolves French labels, because the batched lookup hardcodes
the French locale; the spec-modelled lookup in the current locale returns
the English label instead. -/
theorem label_pass_c9_counterexample :
    (∃ n ∈ (buildGraph centerS9 1 20 (LabelsResponse.entities tblW)).nodes,
       n.id = "Q9" ∧ n.label = "FR-Q9")
    ∧ fetchWikidataLabelsSpec "en" (LabelsResponse.entities tblW) ["Q9"] = [("Q9", "EN-Q9")]
    ∧ ("FR-Q9" : String) ≠ "EN-Q9" := by
  refine ⟨?_, by with_unfolding_all rfl, by decide⟩
  rw [show (buildGraph centerS9 1 20 (LabelsResponse.entities tblW)).nodes =
      [Node.mk "Q1" "FR-Q1" "person" 0 true none none none,
       Node.mk "Q9" "FR-Q9" "notable_work" 1 false (some 3) none none] from by
    with_unfolding_all rfl]
  exact ⟨Node.mk "Q9" "FR-Q9" "notable_work" 1 false (some 3) none none,
    List.mem_cons_of_mem _ (List.mem_singleton.mpr rfl), rfl, rfl⟩

/-- C9 (amended): after BFS the pass batch-resolves exactly the node ids
that look like canonical identifiers, in the fixed French locale regardless
of the language set via setLanguage; a failed lookup leaves the placeholder
labels and never fails construction, and synthetic-id nodes are never
relabelled. -/
theorem label_pass_c9_amended (center : Entity) (depth maxN : Nat) (resp : LabelsResponse) :
    (buildGraph center depth maxN resp).edges = (buildGraphCore center depth maxN).edges
    ∧ (buildGraph center depth maxN resp).nodes.length =
        (buildGraphCore center depth maxN).nodes.length
    ∧ (resp = LabelsResponse.fail →
        (buildGraph center depth maxN resp).nodes = (buildGraphCore center depth maxN).nodes)
    ∧ (∀ n ∈ (buildGraphCore center depth maxN).nodes, strStartsWith n.id "Q" = false →
        applyLabels (labelsMapOf center depth maxN resp) n = n)
    ∧ (∀ tbl, resp = LabelsResponse.entities tbl →
        ∀ n ∈ (buildGraph center depth maxN resp).nodes, strStartsWith n.id "Q" = true →
          n.label = jsOrElse (tbl n.id "fr") n.id) := by
  refine ⟨by rw [buildGraph_def], ?_, ?_, ?_, ?_⟩
  · rw [buildGraph_def]
    exact List.length_map _ _
  · intro hresp
    subst hresp
    rw [buildGraph_def]
    show (buildGraphCore center depth maxN).nodes.map _ = _
    rw [labelsMapOf_fail]
    have : ∀ n ∈ (buildGraphCore center depth maxN).nodes, applyLabels [] n = n :=
      fun n _ => applyLabels_nil n
    rw [List.map_congr_left this]
    simp
  · intro n _ hq
    apply applyLabels_of_absent
    intro hmem
    have := labelsMapOf_keys center depth maxN resp n.id hmem
    rw [hq] at this
    exact Bool.false_ne_true this
  · intro tbl hresp n hn hq
    subst hresp
    rw [buildGraph_def] at hn
    rcases List.mem_map.mp hn with ⟨nz, hnz, hFn⟩
    have hidq : strStartsWith nz.id "Q" = true := by
      rw [← applyLabels_id (labelsMapOf center depth maxN (LabelsResponse.entities tbl)) nz, hFn]
      exact hq
    have hqmem : nz.id ∈ ((buildGraphCore center depth maxN).nodes.filter
        (fun n => strStartsWith n.id "Q")).map (fun n => n.id) :=
      List.mem_map.mpr ⟨nz, List.mem_filter.mpr ⟨hnz, by simpa using hidq⟩, rfl⟩
    have h0 : ¬ ((((buildGraphCore center depth maxN).nodes.filter
        (fun n => strStartsWith n.id "Q")).map (fun n => n.id)).length = 0) := by
      intro h
      rw [List.length_eq_zero] at h
      rw [h] at hqmem
      simp at hqmem
    have hlm : labelsMapOf center depth maxN (LabelsResponse.entities tbl) =
        (((buildGraphCore center depth maxN).nodes.filter
          (fun n => strStartsWith n.id "Q")).map (fun n => n.id)).map
            (fun id => (id, jsOrElse (tbl id "fr") id)) := by
      simp only [labelsMapOf]
      rw [if_neg h0, fetchWikidataLabels, if_neg h0]
    have hget : jsGet (labelsMapOf center depth maxN (LabelsResponse.entities tbl)) nz.id =
        some (jsOrElse (tbl nz.id "fr") nz.id) := by
      rw [hlm, jsGet_map_mk, if_pos hqmem]
    have hne : jsOrElse (tbl nz.id "fr") nz.id ≠ "" := by
      have hkne : nz.id ≠ "" := strStartsWith_Q_ne_empty hidq
      cases htv : tbl nz.id "fr" with
      | none => exact hkne
      | some s =>
        show (if s = "" then nz.id else s) ≠ ""
        by_cases hs : s = ""
        · rw [if_pos hs]; exact hkne
        · rw [if_neg hs]; exact hs
    have hlab : (applyLabels (labelsMapOf center depth maxN (LabelsResponse.entities tbl)) nz).label =
        jsOrElse (tbl nz.id "fr") nz.id := by
      rw [applyLabels, hget]
      show (if jsOrElse (tbl nz.id "fr") nz.id = "" then nz
            else { nz with label := jsOrElse (tbl nz.id "fr") nz.id }).label =
        jsOrElse (tbl nz.id "fr") nz.id
      rw [if_neg hne]
    subst hFn
    rw [applyLabels_id, hlab]

theorem label_pass_c9_witness :
    (buildGraph centerS9 1 20 LabelsResponse.fail).nodes = (buildGraphCore centerS9 1 20).nodes
    ∧ (Node.mk "Q9" "FR-Q9" "notable_work" 1 false (some 3) none none).label =
        jsOrElse (tblW "Q9" "fr") "Q9" := by
  constructor
  · exact (label_pass_c9_amended centerS9 1 20 LabelsResponse.fail).2.2.1 rfl
  · refine (label_pass_c9_amended centerS9 1 20 (LabelsResponse.entities tblW)).2.2.2.2
      tblW rfl _ ?_ ?_
    · rw [show (buildGraph centerS9 1 20 (LabelsResponse.entities tblW)).nodes =
          [Node.mk "Q1" "FR-Q1" "person" 0 true none none none,
           Node.mk "Q9" "FR-Q9" "notable_work" 1 false (some 3) none none] from by
        with_unfolding_all rfl]
      exact List.mem_cons_of_mem _ (List.mem_singleton.mpr rfl)
    · with_unfolding_all rfl

/-! ## Enrichment join (C7) -/

/-- Whether an enrichment outcome succeeded. -/
def exceptOk {ε α : Type} : Except ε α → Bool
  | Except.ok _ => true
  | Except.error _ => false

/-- The sources entries produced by the successful enrichment outcomes. -/
def okPairs (outs : List (String × Except String SourceData)) : List (String × SourceData) :=
  outs.filterMap (fun p => match p.2 with
    | Except.ok d => some (p.1, d)
    | Except.error _ => none)

theorem applyEnrichments_spec :
    ∀ (outs : List (String × Except String SourceData)) (e : Entity),
      applyEnrichments e outs = { e with sources := e.sources ++ okPairs outs } := by
  intro outs
  induction outs with
  | nil => intro e; simp [applyEnrichments, okPairs]
  | cons p rest ih =>
    intro e
    show (p :: rest).foldl _ e = _
    rw [List.foldl_cons]
    rcases p with ⟨nm, out⟩
    cases out with
    | ok d =>
      have hstep : applyEnrichments { e with sources := e.sources ++ [(nm, d)] } rest =
          { e with sources := (e.sources ++ [(nm, d)]) ++ okPairs rest } := ih _
      show applyEnrichments { e with sources := e.sources ++ [(nm, d)] } rest = _
      rw [hstep]
      simp [okPairs, List.filterMap_cons]
    | error msg =>
      show applyEnrichments e rest = _
      rw [ih e]
      simp [okPairs, List.filterMap_cons]

theorem okPairs_fst (outs : List (String × Except String SourceData)) :
    (okPairs outs).map Prod.fst = (outs.filter (fun p => exceptOk p.2)).map Prod.fst := by
  induction outs with
  | nil => rfl
  | cons p rest ih =>
    rcases p with ⟨nm, out⟩
    cases out with
    | ok d =>
      have h1 : okPairs ((nm, Except.ok d) :: rest) = (nm, d) :: okPairs rest := by
        simp [okPairs, List.filterMap_cons]
      have h2 : List.filter (fun p => exceptOk p.2) ((nm, Except.ok d) :: rest) =
          (nm, Except.ok d) :: List.filter (fun p => exceptOk p.2) rest := by
        simp [List.filter_cons, exceptOk]
      rw [h1, h2, List.map_cons, List.map_cons, ih]
    | error msg =>
      have h1 : okPairs ((nm, Except.error msg) :: rest) = okPairs rest := by
        simp [okPairs, List.filterMap_cons]
      have h2 : List.filter (fun p => exceptOk p.2) ((nm, Except.error msg) :: rest) =
          List.filter (fun p => exceptOk p.2) rest := by
        simp [List.filter_cons, exceptOk]
      rw [h1, h2, ih]

/-- C7: when the canonical-record fetch succeeds, resolveEntityFromCandidate
returns an entity no matter which enrichments fail; a failing enrichment
leaves its sources key absent, and the surviving keys are exactly the keys
of the successful outcomes, after the wikidata base entry. -/
theorem enrichment_join_c7 (lang : String)
    (fetchEntity : String → Except String WikidataEntity)
    (outs : List (String × Except String SourceData)) (title wikidataId : String)
    (wd : WikidataEntity) (hfetch : fetchEntity wikidataId = Except.ok wd) :
    ∃ ent, resolveEntityFromCandidate lang fetchEntity outs title wikidataId = Except.ok ent
      ∧ ent.id = wikidataId
      ∧ ent.name = (getLabel wd lang).getD title
      ∧ ent.type = inferEntityType wd
      ∧ ent.sources.map Prod.fst =
          "wikidata" :: (outs.filter (fun p => exceptOk p.2)).map Prod.fst
      ∧ ∀ nm, nm ≠ "wikidata" → (∀ d, (nm, Except.ok d) ∉ outs) →
          jsGet ent.sources nm = none := by
  rw [resolveEntityFromCandidate, hfetch]
  refine ⟨_, rfl, ?_, ?_, ?_, ?_, ?_⟩
  · rw [applyEnrichments_spec]
  · rw [applyEnrichments_spec]
  · rw [applyEnrichments_spec]
  · rw [applyEnrichments_spec]
    show (([("wikidata", SourceData.wikidata wd.claims wd.sitelinks)] ++ okPairs outs).map
      Prod.fst) = _
    rw [List.map_append, okPairs_fst]
    rfl
  · intro nm hne hnot
    rw [applyEnrichments_spec]
    show jsGet (("wikidata", SourceData.wikidata wd.claims wd.sitelinks) :: okPairs outs) nm = none
    rw [jsGet, if_neg (fun h => hne h.symm)]
    apply jsGet_eq_none
    intro hmem
    rcases List.mem_map.mp hmem with ⟨q, hq, hqfst⟩
    rcases List.mem_filterMap.mp hq with ⟨p, hp, hpq⟩
    rcases p with ⟨pn, pout⟩
    cases pout with
    | ok d =>
      have hqe : q = (pn, d) := by simpa using hpq.symm
      subst hqe
      have hpn : pn = nm := by simpa using hqfst
      subst hpn
      exact hnot d hp
    | error msg => simp at hpq

theorem enrichment_join_c7_witness :
    ∃ ent, resolveEntityFromCandidate "fr"
        (fun i => if i = "Q1" then Except.ok wdFilm else Except.error "e")
        [("wikipedia", Except.ok (SourceData.blob "w")), ("musicbrainz", Except.error "boom")]
        "T" "Q1" = Except.ok ent
      ∧ jsGet ent.sources "musicbrainz" = none := by
  obtain ⟨ent, h1, _, _, _, _, habs⟩ := enrichment_join_c7 "fr"
    (fun i => if i = "Q1" then Except.ok wdFilm else Except.error "e")
    [("wikipedia", Except.ok (SourceData.blob "w")), ("musicbrainz", Except.error "boom")]
    "T" "Q1" wdFilm (by rfl)
  refine ⟨ent, h1, habs "musicbrainz" (by decide) ?_⟩
  intro d hd
  simp [List.mem_cons] at hd

/-! ## Resolution pipeline lemmas (C1, C2) -/

theorem ccStep_sub (getId : String → Option (Option String × String))
    (acc : List Candidate) (title : String) :
    ccStep getId acc title = acc ∨
      ∃ cand, ccStep getId acc title = acc ++ [cand]
        ∧ cand.wikidataId ∉ acc.map (fun c => c.wikidataId) := by
  rcases hg : getId title with _ | ⟨idOpt, rt⟩
  · simp only [ccStep, hg]
    exact Or.inl trivial
  · rcases idOpt with _ | id
    · simp only [ccStep, hg]
      exact Or.inl trivial
    · simp only [ccStep, hg]
      by_cases h0 : id = ""
      · rw [if_pos h0]; exact Or.inl rfl
      · rw [if_neg h0]
        by_cases hany : acc.any (fun c => c.wikidataId = id)
        · rw [if_pos hany]; exact Or.inl rfl
        · rw [if_neg hany]
          refine Or.inr ⟨{ title := rt, wikidataId := id }, rfl, ?_⟩
          intro hmem
          rcases List.mem_map.mp hmem with ⟨c, hc, hcid⟩
          exact hany (List.any_eq_true.mpr ⟨c, hc, by simpa using hcid⟩)

theorem cc_fold_nodup (getId : String → Option (Option String × String)) :
    ∀ (ts : List String) (acc : List Candidate),
      (acc.map (fun c => c.wikidataId)).Nodup →
      ((ts.foldl (ccStep getId) acc).map (fun c => c.wikidataId)).Nodup := by
  refine fun ts acc h =>
    foldl_inv (fun acc => (acc.map (fun c => c.wikidataId)).Nodup) (ccStep getId)
      ?_ ts acc h
  intro acc title hn
  rcases ccStep_sub getId acc title with heq | ⟨cand, heq, hnmem⟩
  · rw [heq]; exact hn
  · rw [heq, List.map_append]
    rw [List.nodup_append]
    refine ⟨hn, by simp, ?_⟩
    intro a ha hb
    simp only [List.map_cons, List.map_nil, List.mem_singleton] at hb
    subst hb
    exact hnmem ha

theorem cc_fold_mono (getId : String → Option (Option String × String)) {a : String} :
    ∀ (ts : List String) (acc : List Candidate),
      a ∈ acc.map (fun c => c.wikidataId) →
      a ∈ (ts.foldl (ccStep getId) acc).map (fun c => c.wikidataId) := by
  refine fun ts acc h =>
    foldl_inv (fun acc => a ∈ acc.map (fun c => c.wikidataId)) (ccStep getId) ?_ ts acc h
  intro acc title hmem
  rcases ccStep_sub getId acc title with heq | ⟨cand, heq, _⟩
  · rw [heq]; exact hmem
  · rw [heq, List.map_append]
    exact List.mem_append_left _ hmem

theorem cc_fold_complete (getId : String → Option (Option String × String))
    {pid rt : String} :
    ∀ (ts : List String) (acc : List Candidate) (title : String), title ∈ ts →
      getId title = some (some pid, rt) → pid ≠ "" →
      pid ∈ (ts.foldl (ccStep getId) acc).map (fun c => c.wikidataId) := by
  intro ts
  induction ts with
  | nil => intro acc title h; simp at h
  | cons hd ts ih =>
    intro acc title hmem hg h0
    rw [List.foldl_cons]
    rcases List.mem_cons.mp hmem with hmem | hmem
    · subst hmem
      have : pid ∈ (ccStep getId acc title).map (fun c => c.wikidataId) := by
        simp only [ccStep, hg]
        rw [if_neg h0]
        by_cases hany : acc.any (fun c => c.wikidataId = pid)
        · rw [if_pos hany]
          rcases List.any_eq_true.mp hany with ⟨c, hc, hcid⟩
          exact List.mem_map.mpr ⟨c, hc, by simpa using hcid⟩
        · rw [if_neg hany, List.map_append]
          exact List.mem_append_right _ (by simp)
      exact cc_fold_mono getId ts _ this
    · exact ih _ title hmem hg h0

/-- C1: candidates are deduplicated by canonical id, a single surviving
candidate resolves to a full entity, two or more surviving candidates yield
the disambiguation result listing them, and every canonical id found among
the search results appears among the candidates. -/
theorem disambiguation_c1 (env : PipelineEnv) (q : String) :
    ((collectCandidates env.getId (env.search q)).map (fun c => c.wikidataId)).Nodup
    ∧ (∀ c ent, collectCandidates env.getId (env.search q) = [c] →
        env.resolveCand c.title c.wikidataId = Except.ok ent →
        resolveEntity env q = Except.ok (ResolveOutcome.entity ent))
    ∧ (2 ≤ (collectCandidates env.getId (env.search q)).length →
        resolveEntity env q =
          Except.ok (ResolveOutcome.disambiguation (collectCandidates env.getId (env.search q))))
    ∧ (∀ title ∈ env.search q, ∀ pid rt, env.getId title = some (some pid, rt) → pid ≠ "" →
        pid ∈ (collectCandidates env.getId (env.search q)).map (fun c => c.wikidataId)) := by
  refine ⟨?_, ?_, ?_, ?_⟩
  · exact cc_fold_nodup env.getId (env.search q) [] (by simp)
  · intro c ent hcand hres
    have hne : ¬((env.search q).length = 0) := by
      intro hlen
      rw [List.length_eq_zero] at hlen
      rw [collectCandidates, hlen] at hcand
      simp at hcand
    simp only [resolveEntity]
    rw [if_neg hne, hcand]
    show Except.map ResolveOutcome.entity (env.resolveCand c.title c.wikidataId) =
      Except.ok (ResolveOutcome.entity ent)
    rw [hres]
    rfl
  · intro h2
    have hne : ¬((env.search q).length = 0) := by
      intro hlen
      rw [List.length_eq_zero] at hlen
      rw [collectCandidates, hlen] at h2
      simp at h2
    simp only [resolveEntity]
    rw [if_neg hne]
    rcases hc : collectCandidates env.getId (env.search q) with _ | ⟨c1, cs⟩
    · rw [hc] at h2; simp at h2
    · rcases cs with _ | ⟨c2, cs⟩
      · rw [hc] at h2; simp at h2
      · rfl
  · intro title hmem pid rt hg h0
    exact cc_fold_complete env.getId (env.search q) [] title hmem hg h0

/-- A concrete pipeline environment: three search results, two of which
redirect to the same canonical id. -/
def envW : PipelineEnv :=
  { search := fun _ => ["A", "B", "C"],
    getId := fun t =>
      if t = "A" then some (some "Q1", "A2")
      else if t = "B" then some (some "Q1", "B2")
      else if t = "C" then some (some "Q2", "C2") else none,
    resolveCand := fun t i =>
      Except.ok { id := i, name := t, description := none, type := "entity",
                  identifiers := [], sources := [] } }

theorem disambiguation_c1_witness :
    resolveEntity envW "x" =
      Except.ok (ResolveOutcome.disambiguation
        (collectCandidates envW.getId (envW.search "x")))
    ∧ "Q2" ∈ (collectCandidates envW.getId (envW.search "x")).map (fun c => c.wikidataId) := by
  constructor
  · exact (disambiguation_c1 envW "x").2.2.1 (by decide)
  · refine (disambiguation_c1 envW "x").2.2.2 "C" (by decide) "Q2" "C2" (by decide) (by decide)

/-- C2: a search yielding no result and a candidate list emptied by
filtering both fail with the not-found error embedding the query, and when
the downstream resolution never fails these are the only errors resolve
can surface. -/
theorem notfound_c2 (env : PipelineEnv) (q : String) :
    (env.search q = [] →
      resolveEntity env q = Except.error (ResolveError.notFound
        ("Aucun résultat trouvé pour \"" ++ q ++ "\"")))
    ∧ (env.search q ≠ [] → collectCandidates env.getId (env.search q) = [] →
      resolveEntity env q = Except.error (ResolveError.notFound
        ("Aucun article valide trouvé pour \"" ++ q ++ "\"")))
    ∧ ((∀ t i, exceptOk (env.resolveCand t i) = true) →
      ∀ err, resolveEntity env q = Except.error err →
        ∃ pre, err = ResolveError.notFound (pre ++ q ++ "\"")) := by
  refine ⟨?_, ?_, ?_⟩
  · intro hs
    simp only [resolveEntity]
    rw [hs]
    rfl
  · intro hs hcol
    have hne : ¬((env.search q).length = 0) := by
      intro hlen
      exact hs (List.length_eq_zero.mp hlen)
    simp only [resolveEntity]
    rw [if_neg hne, hcol]
  · intro hok err herr
    by_cases hs : env.search q = []
    · have h1 : resolveEntity env q = Except.error (ResolveError.notFound
          ("Aucun résultat trouvé pour \"" ++ q ++ "\"")) := by
        simp only [resolveEntity]
        rw [hs]
        rfl
      rw [h1] at herr
      exact ⟨"Aucun résultat trouvé pour \"", (Except.error.inj herr).symm⟩
    · have hne : ¬((env.search q).length = 0) := by
        intro hlen
        exact hs (List.length_eq_zero.mp hlen)
      rcases hc : collectCandidates env.getId (env.search q) with _ | ⟨c1, cs⟩
      · have h1 : resolveEntity env q = Except.error (ResolveError.notFound
            ("Aucun article valide trouvé pour \"" ++ q ++ "\"")) := by
          simp only [resolveEntity]
          rw [if_neg hne, hc]
        rw [h1] at herr
        exact ⟨"Aucun article valide trouvé pour \"", (Except.error.inj herr).symm⟩
      · rcases cs with _ | ⟨c2, cs⟩
        · have hok1 := hok c1.title c1.wikidataId
          rcases hres : env.resolveCand c1.title c1.wikidataId with e | ent
          · rw [hres] at hok1
            simp [exceptOk] at hok1
          · have h1 : resolveEntity env q = Except.ok (ResolveOutcome.entity ent) := by
              simp only [resolveEntity]
              rw [if_neg hne, hc]
              show Except.map ResolveOutcome.entity (env.resolveCand c1.title c1.wikidataId) =
                Except.ok (ResolveOutcome.entity ent)
              rw [hres]
              rfl
            rw [h1] at herr
            simp at herr
        · have h1 : resolveEntity env q = Except.ok (ResolveOutcome.disambiguation
              (c1 :: c2 :: cs)) := by
            simp only [resolveEntity]
            rw [if_neg hne, hc]
          rw [h1] at herr
          simp at herr

theorem notfound_c2_witness :
    resolveEntity { envW with search := fun _ => [] } "qq" =
      Except.error (ResolveError.notFound ("Aucun résultat trouvé pour \"" ++ "qq" ++ "\""))
    ∧ resolveEntity { envW with getId := fun _ => none } "qq" =
      Except.error (ResolveError.notFound ("Aucun article valide trouvé pour \"" ++ "qq" ++ "\""))
    ∧ ∃ pre, ResolveError.notFound ("Aucun résultat trouvé pour \"" ++ "qq" ++ "\"") =
        ResolveError.notFound (pre ++ "qq" ++ "\"") := by
  refine ⟨?_, ?_, ?_⟩
  · exact (notfound_c2 { envW with search := fun _ => [] } "qq").1 rfl
  · exact (notfound_c2 { envW with getId := fun _ => none } "qq").2.1
      (by decide) (by decide)
  · exact (notfound_c2 { envW with search := fun _ => [] } "qq").2.2 (fun t i => rfl)
      _ ((notfound_c2 { envW with search := fun _ => [] } "qq").1 rfl)
